import Mathlib

/-!
Verification of the batch speech-to-text pipeline of this repository:
the provider capability interface (`src/providers/base_provider.py`), the
synchronous providers (`azure_provider.py`, `custom_provider.py`,
`google_provider.py`) and the asynchronous Amazon batch orchestrator
(`amazon_provider.py`), together with the incremental CSV result sink.

The Python code is shallowly embedded: records (Python dicts with string
keys and values) become insertion-ordered association lists, remote calls
become oracle functions passed as parameters (success or failure decided
by the oracle), the wall clock becomes an explicit natural-number state in
microseconds, and the poll loop's wall-clock deadline becomes fuel counting
polling rounds.  Exceptions are modelled with `Except`/`Option`.
-/

namespace STT

/-- A Python exception, as far as the embedded code can raise one. -/
inductive PyErr where
  | valueError (msg : String)
  | attributeError (attr : String)
deriving DecidableEq

/-- A result record: a Python dict with string keys and values, kept in
insertion order like CPython dicts. -/
abbrev Record := List (String × String)

/-- Lookup in an insertion-ordered dict (first matching key). -/
def dictGet (k : String) : List (String × α) → Option α
  | [] => none
  | (k2, v) :: t => if k2 = k then some v else dictGet k t

/-- Python dict assignment `d[k] = v`: overwrite in place when the key is
present (keeping its position), append otherwise. -/
def dictInsert (k : String) (v : α) : List (String × α) → List (String × α)
  | [] => [(k, v)]
  | (k2, v2) :: t => if k2 = k then (k, v) :: t else (k2, v2) :: dictInsert k v t

/-- Concatenation of a list of lists (explicit to be structurally reducible). -/
def concatAll : List (List α) → List α
  | [] => []
  | x :: xs => x ++ concatAll xs

/-- Python string comparison: lexicographic on Unicode code points. -/
def charListLe : List Char → List Char → Bool
  | [], _ => true
  | _ :: _, [] => false
  | a :: as, b :: bs => if a = b then charListLe as bs else decide (a < b)

/-- `a <= b` on strings, as Python compares them. -/
def pyStrLeB (a b : String) : Bool := charListLe a.data b.data

/-- Insert into a sorted list (stable: placed before the first element it
is `le` to, hence before later equal elements). -/
def insertSorted (le : α → α → Bool) (x : α) : List α → List α
  | [] => [x]
  | y :: ys => if le x y then x :: y :: ys else y :: insertSorted le x ys

/-- Model of Python's stable `sorted` for a total preorder `le`. -/
def pySortList (le : α → α → Bool) : List α → List α
  | [] => []
  | x :: xs => insertSorted le x (pySortList le xs)

/-- `os.path.basename`: the part after the last slash. -/
def pyBasename (s : String) : String :=
  String.mk ((s.data.reverse.takeWhile (fun c => c ≠ '/')).reverse)

/-- Index of the last occurrence of `c`, Python's `str.rfind`
(`none` standing for -1). -/
def pyRFind (c : Char) (l : List Char) : Option Nat :=
  ((l.enum.filter (fun p => p.2 = c)).map Prod.fst).getLast?

/-- `pathlib.PurePath.suffix`: the last dot-extension of the name, empty
unless the last dot sits strictly inside the name. -/
def pySuffix (name : String) : String :=
  let l := name.data
  match pyRFind '.' l with
  | some i => if 0 < i ∧ i < l.length - 1 then String.mk (l.drop i) else ""
  | none => ""

/-- `pathlib.PurePath.stem`: the name with its last suffix removed. -/
def pyStem (name : String) : String :=
  let l := name.data
  match pyRFind '.' l with
  | some i => if 0 < i ∧ i < l.length - 1 then String.mk (l.take i) else name
  | none => name

/-- Python `str.lower` restricted to the ASCII letters that occur in
extension filters. -/
def pyLower (s : String) : String := String.mk (s.data.map Char.toLower)

/-- Python `str.split(sep)` for a single-character separator: never returns
an empty list (`"".split(sep) == [""]`). -/
def pySplit (sep : Char) : List Char → List (List Char)
  | [] => [[]]
  | c :: cs =>
    if c = sep then [] :: pySplit sep cs
    else
      match pySplit sep cs with
      | [] => [[c]]
      | h :: t => (c :: h) :: t

/-! ## Result sink (`SpeechToTextProvider._save_to_csv`)

The destination file is modelled at the parsed-CSV level: `none` when the
file does not exist, otherwise the list of its lines, each line a list of
cell strings.  The first line is what `csv.DictReader.fieldnames` reads
back as the header. -/

/-- The fixed canonical prefix order of `_save_to_csv`
(`standard_fields` in the source). -/
def standardFields : List String :=
  ["filename", "provider", "text", "status", "transcription_time"]

/-- Field names computed from a batch: standard fields that occur in some
record, in canonical order, followed by the remaining keys sorted
(`sorted(all_keys - set(standard_fields))`). -/
def computeFieldnames (results : List Record) : List String :=
  let allKeys := (concatAll (results.map (fun r => r.map Prod.fst))).eraseDups
  standardFields.filter (fun f => allKeys.contains f) ++
    pySortList pyStrLeB (allKeys.filter (fun k => !standardFields.contains k))

/-- The header-merge loop of `_save_to_csv`: fields of the new batch that
are missing from the existing header are appended after it. -/
def mergeFieldnames (existing newFields : List String) : List String :=
  existing ++ newFields.filter (fun f => !existing.contains f)

/-- One `csv.DictWriter.writerow` with `extrasaction='ignore'` and the
default `restval=''`: a cell per declared field, empty when missing. -/
def writeRow (fields : List String) (r : Record) : List String :=
  fields.map (fun f => (dictGet f r).getD "")

/-- `SpeechToTextProvider._save_to_csv` (base_provider.py lines 82-140).
Empty batches return immediately; a new file gets a header line and the
rows; an existing file has its first line read back as header, extended in
memory by the new fields, and only the rows are appended (no header line
is written in append mode). -/
def save_to_csv (results : List Record) (file : Option (List (List String))) :
    Option (List (List String)) :=
  if results.isEmpty then file
  else
    let fieldnames := computeFieldnames results
    match file with
    | none => some ([fieldnames] ++ results.map (writeRow fieldnames))
    | some lines =>
      let fieldnames2 :=
        match lines.head? with
        | some h => if !h.isEmpty then mergeFieldnames h fieldnames else fieldnames
        | none => fieldnames
      some (lines ++ results.map (writeRow fieldnames2))

/-! ## Directory walking (`transcribe_directory`) -/

/-- One entry of `Path.iterdir()`. -/
structure DirEntry where
  name : String
  isFile : Bool
deriving DecidableEq

/-- The default `supported_extensions` tuple. -/
def defaultExtensions : List String := [".wav", ".mp3", ".ogg", ".flac"]

/-- The audio-file selection of `transcribe_directory`: regular files whose
lowercased suffix is in the filter, as full paths. -/
def audioFilesOf (audioDir : String) (entries : List DirEntry)
    (exts : List String) : List String :=
  (entries.filter (fun e => e.isFile && exts.contains (pyLower (pySuffix e.name)))).map
    (fun e => audioDir ++ "/" ++ e.name)

/-- The per-file loop of the base `transcribe_directory`: transcribe, then
`result['provider'] = self.provider_name`.  A provider object without a
`provider_name` attribute (its `__init__` never set one) raises
`AttributeError` at the first file. -/
def tagResults (providerName : Option String) (transcribeFile : String → Record) :
    List String → Except PyErr (List Record)
  | [] => Except.ok []
  | f :: fs =>
    let result := transcribeFile f
    match providerName with
    | none => Except.error (PyErr.attributeError "provider_name")
    | some p =>
      match tagResults providerName transcribeFile fs with
      | Except.ok rest => Except.ok (dictInsert "provider" p result :: rest)
      | Except.error e => Except.error e

/-- `SpeechToTextProvider.transcribe_directory` (base_provider.py lines
32-80): missing directory raises `ValueError`, no matching files returns
without touching the sink, otherwise the files are processed in
`sorted(audio_files)` order (plain lexicographic sort of the paths) and the
tagged records are saved.  Returns the records produced and the final sink
state. -/
def transcribe_directory (providerName : Option String)
    (transcribeFile : String → Record) (dirs : String → Option (List DirEntry))
    (audioDir : String) (outputCsv : Option (List (List String)))
    (exts : List String) :
    Except PyErr (List Record × Option (List (List String))) :=
  match dirs audioDir with
  | none => Except.error (PyErr.valueError ("Directory not found: " ++ audioDir))
  | some entries =>
    let audioFiles := audioFilesOf audioDir entries exts
    if audioFiles.isEmpty then Except.ok ([], outputCsv)
    else
      match tagResults providerName transcribeFile (pySortList pyStrLeB audioFiles) with
      | Except.ok results => Except.ok (results, save_to_csv results outputCsv)
      | Except.error e => Except.error e

/-! ## Decimal rendering of Python integers

`f"...{int(...)}..."` renders an int in decimal; needed for job names and
HTTP status codes. -/

/-- The character of one decimal digit. -/
def digitChar : Nat → Char
  | 0 => '0' | 1 => '1' | 2 => '2' | 3 => '3' | 4 => '4'
  | 5 => '5' | 6 => '6' | 7 => '7' | 8 => '8' | 9 => '9'
  | _ => '*'

/-- Decimal representation of a natural number, most significant digit
first, as Python's `str(int)` prints it. -/
def decRepr (n : Nat) : List Char :=
  if n = 0 then ['0'] else (Nat.digits 10 n).reverse.map digitChar

/-- Decimal representation as a string. -/
def decStr (n : Nat) : String := String.mk (decRepr n)

/-! ## Synchronous providers (`transcribe_file`)

Each provider's remote interaction is an oracle outcome; the embedded
function is total, reflecting that every failure path of the source is
caught by a `try`/`except` and turned into a record. -/

/-- Outcome of one Azure `recognize_once` call, including the surrounding
`try` body raising (`exn`). -/
inductive AzureOutcome where
  | recognized (text : String)
  | noMatch
  | canceled (reasonStr : String) (isError : Bool) (errorCode : String)
      (errorDetails : String)
  | unknownReason (reasonStr : String)
  | exn (msg : String)

/-- `AzureSpeechToText.transcribe_file` (azure_provider.py lines 59-131).
`tstr` is the formatted elapsed-time string. -/
def azure_transcribe_file (outcome : AzureOutcome) (tstr : String)
    (audioFilePath : String) : Record :=
  let filename := pyBasename audioFilePath
  match outcome with
  | AzureOutcome.recognized text =>
    [("filename", filename), ("text", text), ("status", "success"),
     ("transcription_time", tstr)]
  | AzureOutcome.noMatch =>
    [("filename", filename), ("text", ""), ("status", "no_speech_detected"),
     ("transcription_time", tstr)]
  | AzureOutcome.canceled reasonStr isError errorCode errorDetails =>
    let ed := "Reason=" ++ reasonStr
    let ed := if isError then
        ed ++ ", ErrorCode=" ++ errorCode ++
          (if errorDetails ≠ "" then ", Details=" ++ errorDetails else "")
      else ed
    [("filename", filename), ("text", ""), ("status", "canceled: " ++ ed),
     ("transcription_time", tstr)]
  | AzureOutcome.unknownReason reasonStr =>
    [("filename", filename), ("text", ""),
     ("status", "unknown_result: " ++ reasonStr), ("transcription_time", tstr)]
  | AzureOutcome.exn msg =>
    [("filename", filename), ("text", ""), ("status", "exception: " ++ msg),
     ("transcription_time", "")]

/-- Outcome of one POST to the custom service: a JSON body whose `text`
field may be missing, or one of the handled request exceptions. -/
inductive CustomOutcome where
  | success (textField : Option String)
  | timeoutErr
  | connectionError
  | httpError (code : Nat)
  | exn (msg : String)

/-- `CustomServiceProvider.transcribe_file` (custom_provider.py lines
36-113). -/
def custom_transcribe_file (outcome : CustomOutcome) (tstr : String)
    (serviceUri : String) (audioFilePath : String) : Record :=
  let filename := pyBasename audioFilePath
  match outcome with
  | CustomOutcome.success textField =>
    [("filename", filename), ("text", textField.getD ""), ("status", "success"),
     ("transcription_time", tstr)]
  | CustomOutcome.timeoutErr =>
    [("filename", filename), ("text", ""), ("status", "error: request timeout"),
     ("transcription_time", "")]
  | CustomOutcome.connectionError =>
    [("filename", filename), ("text", ""),
     ("status", "error: cannot connect to service at " ++ serviceUri),
     ("transcription_time", "")]
  | CustomOutcome.httpError code =>
    [("filename", filename), ("text", ""),
     ("status", "error: HTTP " ++ decStr code), ("transcription_time", "")]
  | CustomOutcome.exn msg =>
    [("filename", filename), ("text", ""), ("status", "exception: " ++ msg),
     ("transcription_time", "")]

/-- Outcome of one Google v2 `recognize` call: per-result first-alternative
transcripts (`none` when a result has no alternatives), or a raised
exception. -/
inductive GoogleOutcome where
  | success (alternatives : List (Option String))
  | exn (msg : String)

/-- Python `str.strip()` on the transcript. -/
def pyStrip (s : String) : String :=
  let ws := fun c => c = ' ' ∨ c = '\t' ∨ c = '\n' ∨ c = '\r'
  String.mk (((s.data.dropWhile ws).reverse.dropWhile ws).reverse)

/-- `GoogleSpeechToText.transcribe_file` (google_provider.py lines 49-107). -/
def google_transcribe_file (outcome : GoogleOutcome) (tstr : String)
    (audioFile : String) : Record :=
  let filename := pyBasename audioFile
  match outcome with
  | GoogleOutcome.success alternatives =>
    let transcript :=
      (alternatives.filterMap id).foldl (fun acc t => acc ++ t ++ " ") ""
    [("filename", filename), ("text", pyStrip transcript), ("status", "success"),
     ("transcription_time", tstr)]
  | GoogleOutcome.exn msg =>
    [("filename", filename), ("text", ""), ("status", "error: " ++ msg),
     ("transcription_time", "")]

/-- Failure outcomes of the Azure call (everything but recognized speech). -/
def azureFailureB : AzureOutcome → Bool
  | AzureOutcome.recognized _ => false
  | _ => true

/-- Failure outcomes of the custom-service call. -/
def customFailureB : CustomOutcome → Bool
  | CustomOutcome.success _ => false
  | _ => true

/-- Failure outcomes of the Google call. -/
def googleFailureB : GoogleOutcome → Bool
  | GoogleOutcome.success _ => false
  | _ => true

/-! ## Amazon batch orchestrator (`amazon_provider.py`)

Remote job descriptors are the values of the `jobs` dict; the four sweeps
are `_upload_files_to_s3`, `_start_transcription_jobs`,
`_wait_for_jobs_completion` and `_process_results_and_cleanup`.  The clock
is microseconds; `int(time.time() * 1000)` is `now / 1000`. -/

/-- Remote status reported by `get_transcription_job`. -/
inductive RStatus where
  | rCompleted
  | rFailed
  | rInProgress
deriving DecidableEq

/-- The parts of a `get_transcription_job` response the code reads.
`durationStr` models the already-formatted
`CompletionTime - CreationTime` seconds, `none` when either timestamp is
missing. -/
structure PollResponse where
  jobName : String
  jobStatus : RStatus
  failureReason : Option String
  transcriptUri : String
  durationStr : Option String
deriving DecidableEq

/-- The `status` strings a jobs-dict entry can hold. -/
inductive JStatus where
  | uploaded
  | uploadFailed
  | submitted
  | submitFailed
  | completed
  | failed
  | checkFailed
deriving DecidableEq

/-- The string stored in `job_info['status']`. -/
def jstatusStr : JStatus → String
  | JStatus.uploaded => "uploaded"
  | JStatus.uploadFailed => "upload_failed"
  | JStatus.submitted => "submitted"
  | JStatus.submitFailed => "submit_failed"
  | JStatus.completed => "completed"
  | JStatus.failed => "failed"
  | JStatus.checkFailed => "check_failed"

/-- One entry of the `jobs` dict. -/
structure JobInfo where
  filename : String
  s3Key : String
  audioFilePath : String
  status : JStatus
  error : Option String
  response : Option PollResponse
deriving DecidableEq

/-- The job-name sanitization
`filename.replace('.', '-').replace(' ', '_')`. -/
def sanitize (s : String) : String :=
  String.mk ((s.data.map (fun c => if c = '.' then '-' else c)).map
    (fun c => if c = ' ' then '_' else c))

/-- `f"transcribe-{int(time.time() * 1000)}-{sanitized_name}"`. -/
def jobName (ms : Nat) (san : String) : String :=
  "transcribe-" ++ decStr ms ++ "-" ++ san

/-- One token of a natural-sort key: a numeric run compared as an integer,
or a non-numeric run compared as a string. -/
inductive NToken where
  | num (n : Nat)
  | str (s : List Char)
deriving DecidableEq

/-- Value of a run of digit characters. -/
def digitsVal (l : List Char) : Nat :=
  l.foldl (fun a c => 10 * a + (c.toNat - 48)) 0

/-- Fuel-based tokenizer splitting a character list into digit runs and
non-digit runs. -/
def natTokensGo : Nat → List Char → List NToken
  | 0, _ => []
  | _ + 1, [] => []
  | fuel + 1, c :: cs =>
    if c.isDigit then
      NToken.num (digitsVal ((c :: cs).takeWhile Char.isDigit)) ::
        natTokensGo fuel ((c :: cs).dropWhile Char.isDigit)
    else
      NToken.str ((c :: cs).takeWhile (fun d => !d.isDigit)) ::
        natTokensGo fuel ((c :: cs).dropWhile (fun d => !d.isDigit))

/-- Modelled from the spec: `_natural_sort_key` is called at
amazon_provider.py line 293 but is defined nowhere in the repository (the
call would raise `AttributeError`); the spec describes it as comparing
numeric substrings as integers, so the key splits a path into digit and
non-digit runs. -/
def natural_sort_key (s : String) : List NToken := natTokensGo s.data.length s.data

/-- Comparison of natural-sort keys, tokens compared positionally. -/
def ntokLe : List NToken → List NToken → Bool
  | [], _ => true
  | _ :: _, [] => false
  | a :: as, b :: bs =>
    match a, b with
    | NToken.num m, NToken.num n => if m = n then ntokLe as bs else decide (m < n)
    | NToken.str s, NToken.str t => if s = t then ntokLe as bs else charListLe s t
    | NToken.num _, NToken.str _ => true
    | NToken.str _, NToken.num _ => false

/-- `le` on paths via their natural-sort keys. -/
def natPathLe (a b : String) : Bool := ntokLe (natural_sort_key a) (natural_sort_key b)

/-- The iteration body of `_upload_files_to_s3` over the sorted file list,
producing the `(job_name, job_info)` assignments in order.  `now` is the
clock in microseconds; each iteration may take `advs.headD 0` extra
microseconds, and `time.sleep(0.01)` — executed only after a successful
upload — adds a further 10000. -/
def uploadPairs (upload : String → Except String Unit) :
    List String → Nat → List Nat → List (String × JobInfo)
  | [], _, _ => []
  | f :: fs, now, advs =>
    let filename := pyBasename f
    let name := jobName (now / 1000) (sanitize filename)
    let key := "audio/" ++ filename
    let d := advs.headD 0
    match upload f with
    | Except.ok _ =>
      (name, { filename := filename, s3Key := key, audioFilePath := f,
               status := JStatus.uploaded, error := none, response := none }) ::
        uploadPairs upload fs (now + 10000 + d) advs.tail
    | Except.error e =>
      (name, { filename := filename, s3Key := key, audioFilePath := f,
               status := JStatus.uploadFailed, error := some e, response := none }) ::
        uploadPairs upload fs (now + d) advs.tail

/-- Builds the `jobs` dict from the sequence of assignments. -/
def buildJobs (pairs : List (String × JobInfo)) : List (String × JobInfo) :=
  pairs.foldl (fun jobs p => dictInsert p.1 p.2 jobs) []

/-- `AmazonTranscribe._upload_files_to_s3` (amazon_provider.py lines
280-321): files sorted by the natural-sort key, one dict entry per file,
`uploaded` or `upload_failed`. -/
def upload_files_to_s3 (upload : String → Except String Unit) (files : List String)
    (now : Nat) (advs : List Nat) : List (String × JobInfo) :=
  buildJobs (uploadPairs upload (pySortList natPathLe files) now advs)

/-- The job names generated by `_upload_files_to_s3`, in generation order. -/
def uploadNames (upload : String → Except String Unit) (files : List String)
    (now : Nat) (advs : List Nat) : List String :=
  (uploadPairs upload (pySortList natPathLe files) now advs).map Prod.fst

/-- The per-entry body of `_start_transcription_jobs`: only `uploaded`
entries are submitted; success moves to `submitted`, a raised exception to
`submit_failed`. -/
def submitStep (submit : String → Except String Unit) (name : String)
    (info : JobInfo) : JobInfo :=
  if info.status = JStatus.uploaded then
    match submit name with
    | Except.ok _ => { info with status := JStatus.submitted }
    | Except.error e => { info with status := JStatus.submitFailed, error := some e }
  else info

/-- `AmazonTranscribe._start_transcription_jobs` (amazon_provider.py lines
323-354). -/
def start_transcription_jobs (submit : String → Except String Unit)
    (jobs : List (String × JobInfo)) : List (String × JobInfo) :=
  jobs.map (fun p => (p.1, submitStep submit p.1 p.2))

/-- Outcome of one `get_transcription_job` call. -/
inductive PollOutcome where
  | ok (resp : PollResponse)
  | exn (msg : String)

/-- The per-entry body of one polling round: a response whose job name does
not match the requested one is a fault (`check_failed`), like any raised
exception; terminal remote statuses record the response and move to
`completed`/`failed`; an in-progress job stays `submitted`. -/
def pollStep (poll : String → PollOutcome) (name : String) (info : JobInfo) :
    JobInfo :=
  if info.status = JStatus.submitted then
    match poll name with
    | PollOutcome.ok resp =>
      if resp.jobName ≠ name then
        { info with status := JStatus.checkFailed,
                    error := some "Job name mismatch" }
      else
        match resp.jobStatus with
        | RStatus.rCompleted =>
          { info with response := some resp, status := JStatus.completed }
        | RStatus.rFailed =>
          { info with response := some resp, status := JStatus.failed }
        | RStatus.rInProgress => info
    | PollOutcome.exn e =>
      { info with status := JStatus.checkFailed, error := some e }
  else info

/-- One polling round over the still-submitted entries. -/
def waitRound (poll : String → PollOutcome) (jobs : List (String × JobInfo)) :
    List (String × JobInfo) :=
  jobs.map (fun p => (p.1, pollStep poll p.1 p.2))

/-- Is any entry still awaiting its remote job? -/
def hasSubmitted (jobs : List (String × JobInfo)) : Bool :=
  jobs.any (fun p => p.2.status = JStatus.submitted)

/-- The polling loop of `_wait_for_jobs_completion`, the wall-clock
deadline abstracted into fuel (rounds remaining); on timeout the loop stops
and still-submitted entries keep their stage. -/
def waitLoop (poll : Nat → String → PollOutcome) :
    Nat → Nat → List (String × JobInfo) → List (String × JobInfo)
  | 0, _, jobs => jobs
  | fuel + 1, round, jobs =>
    if hasSubmitted jobs then waitLoop poll fuel (round + 1) (waitRound (poll round) jobs)
    else jobs

/-- `AmazonTranscribe._wait_for_jobs_completion` (amazon_provider.py lines
356-411). -/
def wait_for_jobs_completion (poll : Nat → String → PollOutcome) (fuel : Nat)
    (jobs : List (String × JobInfo)) : List (String × JobInfo) :=
  waitLoop poll fuel 0 jobs

/-- `AmazonTranscribe._add_filename_metadata` (amazon_provider.py lines
532-547): positional underscore-split of the stem. -/
def add_filename_metadata (result : Record) (filename : String) : Record :=
  let parts := pySplit '_' (pyStem filename).data
  let r1 := if 0 < parts.length then
    dictInsert "person" (String.mk (parts.getD 0 [])) result else result
  let r2 := if 1 < parts.length then
    dictInsert "audio" (String.mk (parts.getD 1 [])) r1 else r1
  let r3 := if 2 < parts.length then
    dictInsert "noise" (String.mk (parts.getD 2 [])) r2 else r2
  if 3 < parts.length then
    dictInsert "snr" (String.mk (parts.getD 3 [])) r3 else r3

/-- `AmazonTranscribe._process_single_job_result` (amazon_provider.py lines
454-530), returning the record and the `delete_transcription_job` attempts
made (job cleanup only happens in the `completed` branch after a successful
transcript fetch, and in the `failed` branch).  A missing `response` key or
a raised fetch/delete produces the `except` branch's exception record. -/
def process_single_job_result (fetch : String → Except String String)
    (delJob : String → Except String Unit) (name : String) (info : JobInfo) :
    Record × List String :=
  let filename := info.filename
  match info.status with
  | JStatus.completed =>
    match info.response with
    | none =>
      ([("filename", filename), ("text", ""), ("status", "exception: response"),
        ("transcription_time", "")], [])
    | some resp =>
      let tstr := resp.durationStr.getD ""
      match fetch resp.transcriptUri with
      | Except.error e =>
        ([("filename", filename), ("text", ""), ("status", "exception: " ++ e),
          ("transcription_time", "")], [])
      | Except.ok text =>
        match delJob name with
        | Except.ok _ =>
          ([("filename", filename), ("text", text), ("status", "success"),
            ("transcription_time", tstr)], [name])
        | Except.error e =>
          ([("filename", filename), ("text", ""), ("status", "exception: " ++ e),
            ("transcription_time", "")], [name])
  | JStatus.failed =>
    match info.response with
    | none =>
      ([("filename", filename), ("text", ""), ("status", "exception: response"),
        ("transcription_time", "")], [])
    | some resp =>
      let reason := resp.failureReason.getD "Unknown"
      match delJob name with
      | Except.ok _ =>
        ([("filename", filename), ("text", ""), ("status", "failed: " ++ reason),
          ("transcription_time", "")], [name])
      | Except.error e =>
        ([("filename", filename), ("text", ""), ("status", "exception: " ++ e),
          ("transcription_time", "")], [name])
  | st =>
    let msg := info.error.getD (jstatusStr st)
    ([("filename", filename), ("text", ""), ("status", "error: " ++ msg),
      ("transcription_time", "")], [])

/-- Is `delete_transcription_job` reached for this entry? -/
def shouldDeleteJob (fetch : String → Except String String) (info : JobInfo) : Bool :=
  match info.status with
  | JStatus.completed =>
    match info.response with
    | some resp =>
      match fetch resp.transcriptUri with
      | Except.ok _ => true
      | Except.error _ => false
    | none => false
  | JStatus.failed => info.response.isSome
  | _ => false

/-- Fuel-based chunking of the keys, 1000 per `delete_objects` call. -/
def chunksGo : Nat → List String → List (List String)
  | 0, _ => []
  | fuel + 1, l => if l.isEmpty then [] else l.take 1000 :: chunksGo fuel (l.drop 1000)

/-- The `range(0, len, 1000)` batches of `_cleanup_s3_files`. -/
def chunks1000 (l : List String) : List (List String) := chunksGo l.length l

/-- The batch loop of `_cleanup_s3_files`: a raised `delete_objects` is
caught and only logged, but it also ends the loop, skipping the remaining
batches.  Returns the batches actually attempted. -/
def cleanupBatches (delObjs : List String → Except String Unit) :
    List (List String) → List (List String)
  | [] => []
  | b :: bs =>
    match delObjs b with
    | Except.ok _ => b :: cleanupBatches delObjs bs
    | Except.error _ => [b]

/-- `AmazonTranscribe._cleanup_s3_files` (amazon_provider.py lines
549-571): nothing to do for an empty key list. -/
def cleanup_s3_files (delObjs : List String → Except String Unit)
    (keys : List String) : List (List String) :=
  if keys.isEmpty then [] else cleanupBatches delObjs (chunks1000 keys)

/-- `AmazonTranscribe._process_results_and_cleanup` (amazon_provider.py
lines 413-452): every entry contributes its S3 key to the batch-delete
list and exactly one record (tagged with the provider name and enriched
with filename metadata); job-metadata deletion happens only inside
`_process_single_job_result`.  Returns the records, the
`delete_transcription_job` attempts and the attempted S3 delete batches. -/
def process_results_and_cleanup (fetch : String → Except String String)
    (delJob : String → Except String Unit)
    (delObjs : List String → Except String Unit)
    (jobs : List (String × JobInfo)) :
    List Record × List String × List (List String) :=
  let step := jobs.map (fun p =>
    let pr := process_single_job_result fetch delJob p.1 p.2
    (add_filename_metadata (dictInsert "provider" "amazon" pr.1) p.2.filename, pr.2))
  (step.map Prod.fst, concatAll (step.map Prod.snd),
    cleanup_s3_files delObjs (jobs.map (fun p => p.2.s3Key)))

/-- `AmazonTranscribe.transcribe_directory` (amazon_provider.py lines
217-254): same existence/no-match checks as the base class, then the four
sweeps and the save.  The upload sweep uses the spec-modelled
`natural_sort_key` (see its doc comment). -/
def amazon_transcribe_directory (upload : String → Except String Unit)
    (submit : String → Except String Unit) (poll : Nat → String → PollOutcome)
    (fuel : Nat) (fetch : String → Except String String)
    (delJob : String → Except String Unit)
    (delObjs : List String → Except String Unit) (now : Nat) (advs : List Nat)
    (dirs : String → Option (List DirEntry)) (audioDir : String)
    (outputCsv : Option (List (List String))) (exts : List String) :
    Except PyErr (List Record × Option (List (List String))) :=
  match dirs audioDir with
  | none => Except.error (PyErr.valueError ("Directory not found: " ++ audioDir))
  | some entries =>
    let audioFiles := audioFilesOf audioDir entries exts
    if audioFiles.isEmpty then Except.ok ([], outputCsv)
    else
      let jobs := upload_files_to_s3 upload audioFiles now advs
      let jobs2 := start_transcription_jobs submit jobs
      let jobs3 := wait_for_jobs_completion poll fuel jobs2
      let r := process_results_and_cleanup fetch delJob delObjs jobs3
      Except.ok (r.1, save_to_csv r.1 outputCsv)

/-! ## Stage order -/

/-- Rank in the stage order `Pending → Uploaded → Submitted → terminal`. -/
def stageRank : JStatus → Nat
  | JStatus.uploaded => 1
  | JStatus.submitted => 2
  | _ => 3

/-- A forward-only step: unchanged or strictly later in the stage order. -/
def stepOk (s t : JStatus) : Prop := s = t ∨ stageRank s < stageRank t

/-- The failure stages. -/
def failureStage (s : JStatus) : Prop :=
  s = JStatus.uploadFailed ∨ s = JStatus.submitFailed ∨
    s = JStatus.checkFailed ∨ s = JStatus.failed

/-- Projection used to state ordering facts about a directory run: the
`filename` fields of the records, in processing order. -/
def resFilenames (r : Except PyErr (List Record × Option (List (List String)))) :
    Option (List (Option String)) :=
  match r with
  | Except.ok pr => some (pr.1.map (dictGet "filename"))
  | Except.error _ => none

/-! ## Helper lemmas -/

theorem dictGet_insert (k k2 : String) (v : α) (d : List (String × α)) :
    dictGet k (dictInsert k2 v d) = if k2 = k then some v else dictGet k d := by
  induction d with
  | nil => simp [dictGet, dictInsert]
  | cons p t ih =>
    obtain ⟨k3, v3⟩ := p
    simp only [dictInsert]
    by_cases h : k3 = k2
    · subst h
      by_cases hk : k3 = k <;> simp [dictGet, hk]
    · rw [if_neg h]
      by_cases h2 : k3 = k
      · subst h2
        have hk : ¬ k2 = k3 := fun he => h he.symm
        simp [dictGet, hk]
      · simp [dictGet, h2, ih]

theorem pySplit_length_pos (sep : Char) (l : List Char) : 0 < (pySplit sep l).length := by
  cases l with
  | nil => simp [pySplit]
  | cons c cs =>
    simp only [pySplit]
    split
    · simp
    · split <;> simp

theorem string_mk_data (l : List Char) : (String.mk l).data = l := rfl

theorem append_ne_of_head (a t b : String) (ca cb : Char) (la lb : List Char)
    (ha : a.data = ca :: la) (hb : b.data = cb :: lb) (hne : ca ≠ cb) :
    a ++ t ≠ b := by
  intro h
  have hd := congrArg String.data h
  rw [String.data_append, ha, hb] at hd
  exact hne (List.head_eq_of_cons_eq hd)

theorem append_ne_empty (a t : String) (ca : Char) (la : List Char)
    (ha : a.data = ca :: la) : a ++ t ≠ "" := by
  intro h
  have hd := congrArg String.data h
  rw [String.data_append, ha] at hd
  simp at hd

/-! ## Claim theorems -/

/-- Claim C10: saving an empty list of records is a no-op on the sink: the
destination is neither created when absent nor modified when present (the
source returns before touching the file). -/
theorem save_empty_results_noop (file : Option (List (List String))) :
    save_to_csv [] file = file := rfl

/-- Claim C1 (code bug): at the spec's own example directory
`a2.wav, a10.wav, a1.wav`, the base sequential loop processes files in
plain lexicographic path order `a1.wav, a10.wav, a2.wav` — not the claimed
natural order `a1.wav, a2.wav, a10.wav` (and the Amazon upload sweep would
raise `AttributeError`, its `_natural_sort_key` being defined nowhere in
the repository). -/
theorem processing_order_lexicographic_at_spec_example :
    resFilenames (transcribe_directory (some "azure")
        (fun p => [("filename", pyBasename p), ("text", ""), ("status", "success")])
        (fun d => if d = "audio" then
            some [⟨"a2.wav", true⟩, ⟨"a10.wav", true⟩, ⟨"a1.wav", true⟩]
          else none)
        "audio" none defaultExtensions) =
      some [some "a1.wav", some "a10.wav", some "a2.wav"] ∧
    (some [some "a1.wav", some "a10.wav", some "a2.wav"] : Option (List (Option String))) ≠
      some [some "a1.wav", some "a2.wav", some "a10.wav"] := by
  exact ⟨by decide, by decide⟩

/-- Claim C2 (code bug): a provider object whose constructor never set
`provider_name` (exactly the situation of `CustomServiceProvider` and
`GoogleSpeechToText`, whose `__init__` methods do not call
`super().__init__()`) makes `transcribe_directory` raise `AttributeError`
while tagging the first record, so nothing is written to the sink instead
of the claimed one-record-per-file output. -/
theorem custom_provider_missing_name_aborts_directory :
    transcribe_directory none
        (fun p => [("filename", pyBasename p), ("text", ""), ("status", "success"),
                   ("transcription_time", "")])
        (fun _ => some [⟨"a.wav", true⟩]) "dir" none defaultExtensions =
      Except.error (PyErr.attributeError "provider_name") := rfl

/-- Claim C5 counterexample: appending a batch containing the new field
`person` (and then one containing `snr`) to an existing table whose header
is `filename,text,status` leaves the on-disk header row unchanged: reading
the file back does not yield the union of the batches' field sets, contrary
to the claim. -/
theorem header_row_not_union_after_appends :
    ((save_to_csv [[("filename", "c"), ("text", "u"), ("status", "v"), ("snr", "10dB")]]
        (save_to_csv [[("filename", "b"), ("text", "t"), ("status", "s"), ("person", "p")]]
          (some [["filename", "text", "status"], ["a", "t", "s"]]))).getD []).head? =
      some ["filename", "text", "status"] ∧
    "person" ∉ ["filename", "text", "status"] ∧
    "person" ∈ ([("filename", "b"), ("text", "t"), ("status", "s"), ("person", "p")].map
      Prod.fst) := by
  exact ⟨by decide, by decide, by decide⟩

/-- Claim C5 as amended: appending a non-empty batch to an existing
non-empty table appends only rows (never a header line), under a writer
schema that extends the existing header — existing columns keep their
order as a prefix, new fields are appended after them — and after two
successive appends the on-disk header row is still the original header
(it does not grow to the union of the batches' field sets). -/
theorem append_preserves_header_and_rows (hc : String) (ht : List String)
    (rest : List (List String)) (b1 b2 : List Record)
    (hb1 : b1 ≠ []) (hb2 : b2 ≠ []) :
    save_to_csv b1 (some ((hc :: ht) :: rest)) =
      some (((hc :: ht) :: rest) ++
        b1.map (writeRow (mergeFieldnames (hc :: ht) (computeFieldnames b1)))) ∧
    save_to_csv b2 (save_to_csv b1 (some ((hc :: ht) :: rest))) =
      some ((((hc :: ht) :: rest) ++
          b1.map (writeRow (mergeFieldnames (hc :: ht) (computeFieldnames b1)))) ++
        b2.map (writeRow (mergeFieldnames (hc :: ht) (computeFieldnames b2)))) ∧
    (∃ t1, mergeFieldnames (hc :: ht) (computeFieldnames b1) = (hc :: ht) ++ t1) ∧
    (∃ t2, mergeFieldnames (hc :: ht) (computeFieldnames b2) = (hc :: ht) ++ t2) ∧
    ((save_to_csv b2 (save_to_csv b1 (some ((hc :: ht) :: rest)))).getD []).head? =
      some (hc :: ht) := by
  cases b1 with
  | nil => exact absurd rfl hb1
  | cons r1 t1 =>
    cases b2 with
    | nil => exact absurd rfl hb2
    | cons r2 t2 =>
      refine ⟨rfl, rfl, ⟨_, rfl⟩, ⟨_, rfl⟩, rfl⟩

/-- Claim C5 witness: the amended append behaviour at a concrete table
with header `filename,text,status` and two concrete one-record batches
(one bringing `person`, the next bringing `snr`), obtained from the
amended theorem — in particular the header row after both appends is still
`filename,text,status`. -/
theorem append_preserves_header_and_rows_witness :
    ((save_to_csv [[("filename", "c"), ("text", "u"), ("status", "v"), ("snr", "10dB")]]
        (save_to_csv [[("filename", "b"), ("text", "t"), ("status", "s"), ("person", "p")]]
          (some (("filename" :: ["text", "status"]) :: [["a", "t", "s"]])))).getD
        []).head? = some ("filename" :: ["text", "status"]) := by
  exact (append_preserves_header_and_rows "filename" ["text", "status"]
    [["a", "t", "s"]]
    [[("filename", "b"), ("text", "t"), ("status", "s"), ("person", "p")]]
    [[("filename", "c"), ("text", "u"), ("status", "v"), ("snr", "10dB")]]
    (by decide) (by decide)).2.2.2.2

/-- Claim C6 counterexample: the filename `clip.wav` does not yield an
empty metadata set — its one-part stem makes the code set
`person = "clip"` (Python's `split` never returns an empty list). -/
theorem clip_wav_yields_person_field :
    dictGet "person" (add_filename_metadata
        [("filename", "clip.wav"), ("text", ""), ("status", "success"),
         ("transcription_time", "")] "clip.wav") = some "clip" := by
  decide

/-- Claim C6 as amended: `person` is always set to the first
underscore-part of the stem (the whole stem when it has no underscore),
while `audio`, `noise` and `snr` are set exactly when the stem has more
than 1, 2 and 3 underscore-parts respectively, and left untouched
otherwise. -/
theorem filename_metadata_positional (r : Record) (f : String) :
    dictGet "person" (add_filename_metadata r f) =
      some (String.mk ((pySplit '_' (pyStem f).data).getD 0 [])) ∧
    (1 < (pySplit '_' (pyStem f).data).length →
      dictGet "audio" (add_filename_metadata r f) =
        some (String.mk ((pySplit '_' (pyStem f).data).getD 1 []))) ∧
    (¬ 1 < (pySplit '_' (pyStem f).data).length →
      dictGet "audio" (add_filename_metadata r f) = dictGet "audio" r) ∧
    (2 < (pySplit '_' (pyStem f).data).length →
      dictGet "noise" (add_filename_metadata r f) =
        some (String.mk ((pySplit '_' (pyStem f).data).getD 2 []))) ∧
    (¬ 2 < (pySplit '_' (pyStem f).data).length →
      dictGet "noise" (add_filename_metadata r f) = dictGet "noise" r) ∧
    (3 < (pySplit '_' (pyStem f).data).length →
      dictGet "snr" (add_filename_metadata r f) =
        some (String.mk ((pySplit '_' (pyStem f).data).getD 3 []))) ∧
    (¬ 3 < (pySplit '_' (pyStem f).data).length →
      dictGet "snr" (add_filename_metadata r f) = dictGet "snr" r) := by
  have hp : 0 < (pySplit '_' (pyStem f).data).length := pySplit_length_pos _ _
  by_cases hl1 : 1 < (pySplit '_' (pyStem f).data).length <;>
    by_cases hl2 : 2 < (pySplit '_' (pyStem f).data).length <;>
    by_cases hl3 : 3 < (pySplit '_' (pyStem f).data).length <;>
    first
    | (exfalso; omega)
    | simp [add_filename_metadata, hp, hl1, hl2, hl3, dictGet_insert]

/-- Claim C6 witness: the spec's positive example
`alice_clip1_traffic_10dB.wav` parses to
`person=alice, audio=clip1, noise=traffic, snr=10dB`, obtained from the
amended theorem at this concrete filename. -/
theorem filename_metadata_positional_witness :
    dictGet "person" (add_filename_metadata
        [("filename", "alice_clip1_traffic_10dB.wav"), ("text", ""),
         ("status", "success"), ("transcription_time", "")]
        "alice_clip1_traffic_10dB.wav") = some "alice" ∧
    dictGet "audio" (add_filename_metadata
        [("filename", "alice_clip1_traffic_10dB.wav"), ("text", ""),
         ("status", "success"), ("transcription_time", "")]
        "alice_clip1_traffic_10dB.wav") = some "clip1" ∧
    dictGet "noise" (add_filename_metadata
        [("filename", "alice_clip1_traffic_10dB.wav"), ("text", ""),
         ("status", "success"), ("transcription_time", "")]
        "alice_clip1_traffic_10dB.wav") = some "traffic" ∧
    dictGet "snr" (add_filename_metadata
        [("filename", "alice_clip1_traffic_10dB.wav"), ("text", ""),
         ("status", "success"), ("transcription_time", "")]
        "alice_clip1_traffic_10dB.wav") = some "10dB" := by
  have h := filename_metadata_positional
    [("filename", "alice_clip1_traffic_10dB.wav"), ("text", ""),
     ("status", "success"), ("transcription_time", "")]
    "alice_clip1_traffic_10dB.wav"
  refine ⟨h.1.trans (by decide), (h.2.1 (by decide)).trans (by decide),
    (h.2.2.2.1 (by decide)).trans (by decide),
    (h.2.2.2.2.2.1 (by decide)).trans (by decide)⟩

/-- Claim C9: both `transcribe_directory` implementations (base class and
Amazon override) raise the configuration error `ValueError` (the spec's
`ConfigurationError`) when the input directory does not exist, and return
immediately as a no-op — no error, nothing written to the sink — when the
directory exists but holds no file with a matching extension. -/
theorem directory_missing_error_and_empty_noop :
    (∀ pn tf dirs d out exts, dirs d = none →
      transcribe_directory pn tf dirs d out exts =
        Except.error (PyErr.valueError ("Directory not found: " ++ d))) ∧
    (∀ pn tf dirs d out exts es, dirs d = some es → audioFilesOf d es exts = [] →
      transcribe_directory pn tf dirs d out exts = Except.ok ([], out)) ∧
    (∀ upload submit poll fuel fetch delJob delObjs now advs dirs d out exts,
      dirs d = none →
      amazon_transcribe_directory upload submit poll fuel fetch delJob delObjs
          now advs dirs d out exts =
        Except.error (PyErr.valueError ("Directory not found: " ++ d))) ∧
    (∀ upload submit poll fuel fetch delJob delObjs now advs dirs d out exts es,
      dirs d = some es → audioFilesOf d es exts = [] →
      amazon_transcribe_directory upload submit poll fuel fetch delJob delObjs
          now advs dirs d out exts = Except.ok ([], out)) := by
  refine ⟨?_, ?_, ?_, ?_⟩
  · intro pn tf dirs d out exts h
    simp [transcribe_directory, h]
  · intro pn tf dirs d out exts es h hempty
    simp [transcribe_directory, h, hempty]
  · intro upload submit poll fuel fetch delJob delObjs now advs dirs d out exts h
    simp [amazon_transcribe_directory, h]
  · intro upload submit poll fuel fetch delJob delObjs now advs dirs d out exts es h hempty
    simp [amazon_transcribe_directory, h, hempty]

/-- Claim C9 witness: concrete runs — a missing directory raises the
configuration error; a directory holding only `notes.txt` is a no-op that
leaves the sink untouched — obtained from the claim theorem at these
inputs. -/
theorem directory_missing_error_and_empty_noop_witness :
    transcribe_directory (some "azure") (fun _ => []) (fun _ => none) "missing"
        (some [["filename", "text", "status"]]) defaultExtensions =
      Except.error (PyErr.valueError ("Directory not found: " ++ "missing")) ∧
    transcribe_directory (some "azure") (fun _ => [])
        (fun _ => some [⟨"notes.txt", true⟩]) "dir"
        (some [["filename", "text", "status"]]) defaultExtensions =
      Except.ok ([], some [["filename", "text", "status"]]) ∧
    amazon_transcribe_directory (fun _ => Except.ok ()) (fun _ => Except.ok ())
        (fun _ _ => PollOutcome.exn "e") 0 (fun _ => Except.ok "")
        (fun _ => Except.ok ()) (fun _ => Except.ok ()) 0 [] (fun _ => none)
        "missing" (some [["filename", "text", "status"]]) defaultExtensions =
      Except.error (PyErr.valueError ("Directory not found: " ++ "missing")) ∧
    amazon_transcribe_directory (fun _ => Except.ok ()) (fun _ => Except.ok ())
        (fun _ _ => PollOutcome.exn "e") 0 (fun _ => Except.ok "")
        (fun _ => Except.ok ()) (fun _ => Except.ok ()) 0 []
        (fun _ => some [⟨"notes.txt", true⟩]) "dir"
        (some [["filename", "text", "status"]]) defaultExtensions =
      Except.ok ([], some [["filename", "text", "status"]]) := by
  refine ⟨directory_missing_error_and_empty_noop.1 _ _ _ _ _ _ rfl,
    directory_missing_error_and_empty_noop.2.1 _ _ _ _ _ _ _ rfl (by decide),
    directory_missing_error_and_empty_noop.2.2.1 _ _ _ _ _ _ _ _ _ _ _ _ _ rfl,
    directory_missing_error_and_empty_noop.2.2.2 _ _ _ _ _ _ _ _ _ _ _ _ _ _ rfl
      (by decide)⟩

/-- Claim C7: the synchronous providers' `transcribe_file` never lets a
failure escape: for every failure outcome (no speech, cancellation,
connection or HTTP error, timeout, unexpected exception) each of the
Azure, custom-service and Google implementations returns a record whose
`text` is the empty string and whose `status` is a non-empty string
different from `success` (the embedded functions are total, reflecting the
catch-all `except` branches of the source). -/
theorem sync_failures_return_empty_text_nonsuccess_status :
    (∀ o tstr f, azureFailureB o = true →
      dictGet "text" (azure_transcribe_file o tstr f) = some "" ∧
      ∃ s, dictGet "status" (azure_transcribe_file o tstr f) = some s ∧
        s ≠ "success" ∧ s ≠ "") ∧
    (∀ o tstr uri f, customFailureB o = true →
      dictGet "text" (custom_transcribe_file o tstr uri f) = some "" ∧
      ∃ s, dictGet "status" (custom_transcribe_file o tstr uri f) = some s ∧
        s ≠ "success" ∧ s ≠ "") ∧
    (∀ o tstr f, googleFailureB o = true →
      dictGet "text" (google_transcribe_file o tstr f) = some "" ∧
      ∃ s, dictGet "status" (google_transcribe_file o tstr f) = some s ∧
        s ≠ "success" ∧ s ≠ "") := by
  refine ⟨?_, ?_, ?_⟩
  · intro o tstr f hf
    cases o with
    | recognized t => simp [azureFailureB] at hf
    | noMatch => exact ⟨rfl, "no_speech_detected", rfl, by decide, by decide⟩
    | canceled r ie ec ed =>
      exact ⟨rfl, _, rfl,
        append_ne_of_head "canceled: " _ "success" 'c' 's' _ _ rfl rfl (by decide),
        append_ne_empty "canceled: " _ 'c' _ rfl⟩
    | unknownReason r =>
      exact ⟨rfl, _, rfl,
        append_ne_of_head "unknown_result: " _ "success" 'u' 's' _ _ rfl rfl (by decide),
        append_ne_empty "unknown_result: " _ 'u' _ rfl⟩
    | exn m =>
      exact ⟨rfl, _, rfl,
        append_ne_of_head "exception: " _ "success" 'e' 's' _ _ rfl rfl (by decide),
        append_ne_empty "exception: " _ 'e' _ rfl⟩
  · intro o tstr uri f hf
    cases o with
    | success t => simp [customFailureB] at hf
    | timeoutErr => exact ⟨rfl, "error: request timeout", rfl, by decide, by decide⟩
    | connectionError =>
      exact ⟨rfl, _, rfl,
        append_ne_of_head "error: cannot connect to service at " _ "success" 'e' 's'
          _ _ rfl rfl (by decide),
        append_ne_empty "error: cannot connect to service at " _ 'e' _ rfl⟩
    | httpError code =>
      exact ⟨rfl, _, rfl,
        append_ne_of_head "error: HTTP " _ "success" 'e' 's' _ _ rfl rfl (by decide),
        append_ne_empty "error: HTTP " _ 'e' _ rfl⟩
    | exn m =>
      exact ⟨rfl, _, rfl,
        append_ne_of_head "exception: " _ "success" 'e' 's' _ _ rfl rfl (by decide),
        append_ne_empty "exception: " _ 'e' _ rfl⟩
  · intro o tstr f hf
    cases o with
    | success alts => simp [googleFailureB] at hf
    | exn m =>
      exact ⟨rfl, _, rfl,
        append_ne_of_head "error: " _ "success" 'e' 's' _ _ rfl rfl (by decide),
        append_ne_empty "error: " _ 'e' _ rfl⟩

/-- Claim C7 witness: the guarantee at concrete failing calls — an Azure
no-match, a custom-service timeout and a Google exception — obtained from
the claim theorem. -/
theorem sync_failures_return_empty_text_nonsuccess_status_witness :
    (dictGet "text" (azure_transcribe_file AzureOutcome.noMatch "1.00" "a.wav") =
        some "" ∧
      ∃ s, dictGet "status" (azure_transcribe_file AzureOutcome.noMatch "1.00"
          "a.wav") = some s ∧ s ≠ "success" ∧ s ≠ "") ∧
    (dictGet "text" (custom_transcribe_file CustomOutcome.timeoutErr ""
          "http://0.0.0.0:8000" "a.wav") = some "" ∧
      ∃ s, dictGet "status" (custom_transcribe_file CustomOutcome.timeoutErr ""
          "http://0.0.0.0:8000" "a.wav") = some s ∧ s ≠ "success" ∧ s ≠ "") ∧
    (dictGet "text" (google_transcribe_file (GoogleOutcome.exn "boom") ""
          "a.wav") = some "" ∧
      ∃ s, dictGet "status" (google_transcribe_file (GoogleOutcome.exn "boom") ""
          "a.wav") = some s ∧ s ≠ "success" ∧ s ≠ "") := by
  exact ⟨sync_failures_return_empty_text_nonsuccess_status.1 _ _ _ rfl,
    sync_failures_return_empty_text_nonsuccess_status.2.1 _ _ _ _ rfl,
    sync_failures_return_empty_text_nonsuccess_status.2.2 _ _ _ rfl⟩

theorem stepOk_refl (s : JStatus) : stepOk s s := Or.inl rfl

theorem stepOk_trans {a b c : JStatus} (h1 : stepOk a b) (h2 : stepOk b c) :
    stepOk a c := by
  rcases h1 with rfl | h1
  · exact h2
  · rcases h2 with rfl | h2
    · exact Or.inr h1
    · exact Or.inr (h1.trans h2)

theorem dictGet_map_keyed (g : String → JobInfo → JobInfo)
    (l : List (String × JobInfo)) (k : String) :
    dictGet k (l.map (fun p => (p.1, g p.1 p.2))) = (dictGet k l).map (g k) := by
  induction l with
  | nil => rfl
  | cons p t ih =>
    obtain ⟨k2, v⟩ := p
    by_cases h : k2 = k
    · subst h
      simp [dictGet]
    · simp [dictGet, h, ih]

theorem submitStep_stepOk (submit : String → Except String Unit) (k : String)
    (info : JobInfo) : stepOk info.status (submitStep submit k info).status := by
  unfold submitStep
  by_cases h : info.status = JStatus.uploaded
  · rw [if_pos h, h]
    cases submit k <;> exact Or.inr (by simp [stageRank])
  · rw [if_neg h]
    exact stepOk_refl _

theorem submitStep_not_uploaded (submit : String → Except String Unit) (k : String)
    (info : JobInfo) (h : info.status ≠ JStatus.uploaded) :
    submitStep submit k info = info := by
  unfold submitStep
  rw [if_neg h]

theorem pollStep_stepOk (poll : String → PollOutcome) (k : String)
    (info : JobInfo) : stepOk info.status (pollStep poll k info).status := by
  unfold pollStep
  by_cases h : info.status = JStatus.submitted
  · rw [if_pos h, h]
    cases poll k with
    | ok resp =>
      dsimp only
      by_cases hn : resp.jobName ≠ k
      · rw [if_pos hn]
        exact Or.inr (by simp [stageRank])
      · rw [if_neg hn]
        cases resp.jobStatus <;> dsimp only
        · exact Or.inr (by simp [stageRank])
        · exact Or.inr (by simp [stageRank])
        · exact Or.inl h.symm
    | exn e => exact Or.inr (by simp [stageRank])
  · rw [if_neg h]
    exact stepOk_refl _

theorem pollStep_not_submitted (poll : String → PollOutcome) (k : String)
    (info : JobInfo) (h : info.status ≠ JStatus.submitted) :
    pollStep poll k info = info := by
  unfold pollStep
  rw [if_neg h]

theorem waitLoop_lookup (poll : Nat → String → PollOutcome) :
    ∀ (fuel round : Nat) (jobs : List (String × JobInfo)) (k : String) (v : JobInfo),
      dictGet k jobs = some v →
      ∃ v3, dictGet k (waitLoop poll fuel round jobs) = some v3 ∧
        stepOk v.status v3.status ∧
        (v.status ≠ JStatus.submitted → v3 = v) := by
  intro fuel
  induction fuel with
  | zero => exact fun round jobs k v h => ⟨v, h, stepOk_refl _, fun _ => rfl⟩
  | succ n ih =>
    intro round jobs k v h
    unfold waitLoop
    by_cases hs : hasSubmitted jobs
    · rw [if_pos hs]
      have h1 : dictGet k (waitRound (poll round) jobs) =
          some (pollStep (poll round) k v) := by
        unfold waitRound
        rw [dictGet_map_keyed, h]
        rfl
      obtain ⟨v3, h3, hstep, hfix⟩ := ih (round + 1) _ k _ h1
      refine ⟨v3, h3, stepOk_trans (pollStep_stepOk _ _ _) hstep, fun hv => ?_⟩
      have he : pollStep (poll round) k v = v := pollStep_not_submitted _ _ _ hv
      rw [he] at hfix
      exact hfix hv
    · rw [if_neg hs]
      exact ⟨v, h, stepOk_refl _, fun _ => rfl⟩

theorem mem_dictInsert_elim {a k : String} {b v : α} {d : List (String × α)}
    (h : (a, b) ∈ dictInsert k v d) : (a, b) = (k, v) ∨ (a, b) ∈ d := by
  induction d with
  | nil => simpa [dictInsert] using h
  | cons p t ih =>
    obtain ⟨k2, v2⟩ := p
    by_cases hk : k2 = k
    · subst hk
      rw [dictInsert, if_pos rfl] at h
      rcases List.mem_cons.mp h with h1 | h1
      · exact Or.inl h1
      · exact Or.inr (List.mem_cons_of_mem _ h1)
    · rw [dictInsert, if_neg hk] at h
      rcases List.mem_cons.mp h with h1 | h1
      · exact Or.inr (by simp [h1])
      · rcases ih h1 with h2 | h2
        · exact Or.inl h2
        · exact Or.inr (List.mem_cons_of_mem _ h2)

theorem mem_foldl_dictInsert {a : String} {b : α} :
    ∀ (pairs : List (String × α)) (init : List (String × α)),
      (a, b) ∈ pairs.foldl (fun jobs p => dictInsert p.1 p.2 jobs) init →
      (a, b) ∈ init ∨ (a, b) ∈ pairs := by
  intro pairs
  induction pairs with
  | nil => exact fun init h => Or.inl h
  | cons p t ih =>
    intro init h
    rcases ih (dictInsert p.1 p.2 init) h with h1 | h1
    · rcases mem_dictInsert_elim h1 with h2 | h2
      · exact Or.inr (by simp [h2])
      · exact Or.inl h2
    · exact Or.inr (List.mem_cons_of_mem _ h1)

theorem mem_buildJobs {a : String} {b : JobInfo} {pairs : List (String × JobInfo)}
    (h : (a, b) ∈ buildJobs pairs) : (a, b) ∈ pairs := by
  rcases mem_foldl_dictInsert pairs [] h with h1 | h1
  · simp at h1
  · exact h1

theorem uploadPairs_status (upload : String → Except String Unit) :
    ∀ (l : List String) (now : Nat) (advs : List Nat) (k : String) (v : JobInfo),
      (k, v) ∈ uploadPairs upload l now advs →
      v.status = JStatus.uploaded ∨ v.status = JStatus.uploadFailed := by
  intro l
  induction l with
  | nil => simp [uploadPairs]
  | cons f fs ih =>
    intro now advs k v h
    unfold uploadPairs at h
    cases hu : upload f <;> rw [hu] at h <;>
      rcases List.mem_cons.mp h with h1 | h1
    · cases h1
      exact Or.inr rfl
    · exact ih _ _ _ _ h1
    · cases h1
      exact Or.inl rfl
    · exact ih _ _ _ _ h1

/-- Claim C3: descriptor stages are forward-only across the sweeps.  Every
entry written by the upload sweep starts at `uploaded` or `upload_failed`
(forward from Pending); through the submit sweep and the whole polling
loop each entry's status either stays put or moves strictly up the stage
order (`uploaded < submitted < terminal`), no stage is revisited, and an
entry already in a failure stage is left untouched by both later sweeps. -/
theorem stage_forward_only :
    (∀ upload files now advs (k : String) (v : JobInfo),
      (k, v) ∈ upload_files_to_s3 upload files now advs →
      v.status = JStatus.uploaded ∨ v.status = JStatus.uploadFailed) ∧
    (∀ submit poll fuel round (jobs : List (String × JobInfo)) (k : String)
        (v : JobInfo), dictGet k jobs = some v →
      ∃ v2 v3,
        dictGet k (start_transcription_jobs submit jobs) = some v2 ∧
        dictGet k (waitLoop poll fuel round (start_transcription_jobs submit jobs)) =
          some v3 ∧
        stepOk v.status v2.status ∧ stepOk v2.status v3.status ∧
        (failureStage v.status → v2 = v) ∧
        (failureStage v2.status → v3 = v2)) := by
  constructor
  · intro upload files now advs k v h
    exact uploadPairs_status upload _ _ _ _ _ (mem_buildJobs h)
  · intro submit poll fuel round jobs k v h
    have h2 : dictGet k (start_transcription_jobs submit jobs) =
        some (submitStep submit k v) := by
      unfold start_transcription_jobs
      rw [dictGet_map_keyed, h]
      rfl
    obtain ⟨v3, h3, hstep, hfix⟩ := waitLoop_lookup poll fuel round _ k _ h2
    refine ⟨submitStep submit k v, v3, h2, h3, submitStep_stepOk _ _ _, hstep,
      fun hfail => ?_, fun hfail => ?_⟩
    · refine submitStep_not_uploaded _ _ _ ?_
      rcases hfail with h4 | h4 | h4 | h4 <;> rw [h4] <;> intro hc <;> cases hc
    · refine hfix ?_
      rcases hfail with h4 | h4 | h4 | h4 <;> rw [h4] <;> intro hc <;> cases hc

/-- Claim C3 witness: the stage guarantees at a concrete run — the upload
sweep writing one `uploaded` entry, and a jobs dict with one `uploaded`
entry pushed through a succeeding submit sweep and a completing two-round
poll loop — obtained from the claim theorem. -/
theorem stage_forward_only_witness :
    ((⟨"a.wav", "audio/a.wav", "a.wav", JStatus.uploaded, none, none⟩ :
        JobInfo).status = JStatus.uploaded ∨
      (⟨"a.wav", "audio/a.wav", "a.wav", JStatus.uploaded, none, none⟩ :
        JobInfo).status = JStatus.uploadFailed) ∧
    (∃ v2 v3,
      dictGet "j" (start_transcription_jobs (fun _ => Except.ok ())
          [("j", ⟨"a.wav", "audio/a.wav", "a.wav", JStatus.uploaded, none, none⟩)]) =
        some v2 ∧
      dictGet "j" (waitLoop
          (fun _ _ => PollOutcome.ok ⟨"j", RStatus.rCompleted, none, "uri", none⟩)
          2 0 (start_transcription_jobs (fun _ => Except.ok ())
          [("j", ⟨"a.wav", "audio/a.wav", "a.wav", JStatus.uploaded, none, none⟩)])) =
        some v3 ∧
      stepOk JStatus.uploaded v2.status ∧ stepOk v2.status v3.status ∧
      (failureStage JStatus.uploaded →
        v2 = ⟨"a.wav", "audio/a.wav", "a.wav", JStatus.uploaded, none, none⟩) ∧
      (failureStage v2.status → v3 = v2)) := by
  refine ⟨stage_forward_only.1 (fun _ => Except.ok ()) ["a.wav"] 0 []
    "transcribe-0-a-wav" _ (by decide), ?_⟩
  exact stage_forward_only.2 (fun _ => Except.ok ())
    (fun _ _ => PollOutcome.ok ⟨"j", RStatus.rCompleted, none, "uri", none⟩)
    2 0 [("j", ⟨"a.wav", "audio/a.wav", "a.wav", JStatus.uploaded, none, none⟩)]
    "j" ⟨"a.wav", "audio/a.wav", "a.wav", JStatus.uploaded, none, none⟩ rfl

theorem process_single_log (fetch : String → Except String String)
    (delJob : String → Except String Unit) (k : String) (info : JobInfo) :
    (process_single_job_result fetch delJob k info).2 =
      if shouldDeleteJob fetch info then [k] else [] := by
  unfold process_single_job_result shouldDeleteJob
  cases info.status <;> cases hresp : info.response <;> dsimp only
  case completed.some resp =>
    cases fetch resp.transcriptUri <;> dsimp only
    · rfl
    · cases delJob k <;> rfl
  case failed.some resp =>
    cases delJob k <;> rfl
  all_goals rfl

theorem concat_if_singleton (fetch : String → Except String String) :
    ∀ (jobs : List (String × JobInfo)),
      concatAll (jobs.map (fun p => if shouldDeleteJob fetch p.2 then [p.1] else [])) =
        (jobs.filter (fun p => shouldDeleteJob fetch p.2)).map Prod.fst := by
  intro jobs
  induction jobs with
  | nil => rfl
  | cons p t ih =>
    by_cases h : shouldDeleteJob fetch p.2 <;>
      simp [concatAll, List.filter_cons, h, ih]

theorem chunksGo_concat :
    ∀ (fuel : Nat) (l : List String), l.length ≤ fuel →
      concatAll (chunksGo fuel l) = l := by
  intro fuel
  induction fuel with
  | zero =>
    intro l h
    have : l = [] := List.eq_nil_of_length_eq_zero (Nat.le_zero.mp h)
    subst this
    rfl
  | succ n ih =>
    intro l h
    unfold chunksGo
    by_cases he : l.isEmpty
    · rw [if_pos he]
      exact (List.isEmpty_iff.mp he).symm
    · rw [if_neg he]
      have hlen : (l.drop 1000).length ≤ n := by
        have h1 : l ≠ [] := fun hc => he (by simp [hc])
        have h2 : 0 < l.length := List.length_pos.mpr h1
        rw [List.length_drop]
        omega
      rw [concatAll, ih _ hlen, List.take_append_drop]

theorem cleanupBatches_all_ok (delObjs : List String → Except String Unit)
    (hok : ∀ b, delObjs b = Except.ok ()) :
    ∀ bs, cleanupBatches delObjs bs = bs := by
  intro bs
  induction bs with
  | nil => rfl
  | cons b t ih =>
    unfold cleanupBatches
    rw [hok b, ih]

/-- Claim C4 counterexample: a descriptor that reached `Submitted` and
ended in `CheckFailed` receives no remote job-metadata cleanup attempt at
all — `_process_results_and_cleanup` records zero
`delete_transcription_job` calls for it, contrary to the claim that both
cleanups are attempted for every descriptor that reached `Uploaded` or
later. -/
theorem job_cleanup_skipped_for_check_failed :
    ¬ ("job1" ∈ (process_results_and_cleanup (fun _ => Except.ok "text")
        (fun _ => Except.ok ()) (fun _ => Except.ok ())
        [("job1", ⟨"f.wav", "audio/f.wav", "f.wav", JStatus.checkFailed,
          some "boom", none⟩)]).2.1) := by
  decide

/-- Claim C4 as amended: the storage-object cleanup is attempted for every
descriptor — each entry's S3 key appears exactly once in the attempted
batched deletes (when the batch calls succeed) — and cleanup failures are
only logged; but the remote job-metadata cleanup is attempted (exactly
once) only for descriptors that ended `Completed` with a successful
transcript fetch or `Failed` with a poll response present; descriptors
ending `CheckFailed`, `SubmitFailed`, `UploadFailed` or still `Submitted`
at timeout get no job-metadata cleanup attempt.  One record per descriptor
is still emitted. -/
theorem cleanup_logs_characterized (fetch : String → Except String String)
    (delJob : String → Except String Unit)
    (delObjs : List String → Except String Unit)
    (jobs : List (String × JobInfo))
    (hok : ∀ b, delObjs b = Except.ok ()) :
    (process_results_and_cleanup fetch delJob delObjs jobs).1.length = jobs.length ∧
    (process_results_and_cleanup fetch delJob delObjs jobs).2.1 =
      (jobs.filter (fun p => shouldDeleteJob fetch p.2)).map Prod.fst ∧
    concatAll (process_results_and_cleanup fetch delJob delObjs jobs).2.2 =
      jobs.map (fun p => p.2.s3Key) := by
  refine ⟨by simp [process_results_and_cleanup], ?_, ?_⟩
  · have h1 : (process_results_and_cleanup fetch delJob delObjs jobs).2.1 =
        concatAll (jobs.map (fun p =>
          if shouldDeleteJob fetch p.2 then [p.1] else [])) := by
      simp only [process_results_and_cleanup, List.map_map]
      congr 1
      apply List.map_congr_left
      intro p _
      exact process_single_log fetch delJob p.1 p.2
    rw [h1, concat_if_singleton]
  · simp only [process_results_and_cleanup, cleanup_s3_files]
    by_cases he : (jobs.map (fun p => p.2.s3Key)).isEmpty
    · rw [if_pos he]
      exact (List.isEmpty_iff.mp he).symm
    · rw [if_neg he, cleanupBatches_all_ok delObjs hok, chunks1000,
        chunksGo_concat _ _ (Nat.le_refl _)]

/-- Claim C4 witness: the amended cleanup characterization at a concrete
jobs dict — one `Completed` descriptor with a fetchable transcript and one
`Failed` descriptor — obtained from the amended theorem with all S3 batch
deletes succeeding. -/
theorem cleanup_logs_characterized_witness :
    (process_results_and_cleanup (fun _ => Except.ok "text")
        (fun _ => Except.ok ()) (fun _ => Except.ok ())
        [("j1", ⟨"a_x.wav", "audio/a_x.wav", "a_x.wav", JStatus.completed, none,
          some ⟨"j1", RStatus.rCompleted, none, "uri1", some "1.23"⟩⟩),
         ("j2", ⟨"b_y.wav", "audio/b_y.wav", "b_y.wav", JStatus.failed, none,
          some ⟨"j2", RStatus.rFailed, some "bad media", "uri2", none⟩⟩)]).1.length =
      ([("j1", (⟨"a_x.wav", "audio/a_x.wav", "a_x.wav", JStatus.completed, none,
          some ⟨"j1", RStatus.rCompleted, none, "uri1", some "1.23"⟩⟩ : JobInfo)),
        ("j2", ⟨"b_y.wav", "audio/b_y.wav", "b_y.wav", JStatus.failed, none,
          some ⟨"j2", RStatus.rFailed, some "bad media", "uri2", none⟩⟩)] :
        List (String × JobInfo)).length ∧
    (process_results_and_cleanup (fun _ => Except.ok "text")
        (fun _ => Except.ok ()) (fun _ => Except.ok ())
        [("j1", ⟨"a_x.wav", "audio/a_x.wav", "a_x.wav", JStatus.completed, none,
          some ⟨"j1", RStatus.rCompleted, none, "uri1", some "1.23"⟩⟩),
         ("j2", ⟨"b_y.wav", "audio/b_y.wav", "b_y.wav", JStatus.failed, none,
          some ⟨"j2", RStatus.rFailed, some "bad media", "uri2", none⟩⟩)]).2.1 =
      (([("j1", (⟨"a_x.wav", "audio/a_x.wav", "a_x.wav", JStatus.completed, none,
          some ⟨"j1", RStatus.rCompleted, none, "uri1", some "1.23"⟩⟩ : JobInfo)),
         ("j2", ⟨"b_y.wav", "audio/b_y.wav", "b_y.wav", JStatus.failed, none,
          some ⟨"j2", RStatus.rFailed, some "bad media", "uri2", none⟩⟩)] :
        List (String × JobInfo)).filter
        (fun p => shouldDeleteJob (fun _ => Except.ok "text") p.2)).map Prod.fst ∧
    concatAll (process_results_and_cleanup (fun _ => Except.ok "text")
        (fun _ => Except.ok ()) (fun _ => Except.ok ())
        [("j1", ⟨"a_x.wav", "audio/a_x.wav", "a_x.wav", JStatus.completed, none,
          some ⟨"j1", RStatus.rCompleted, none, "uri1", some "1.23"⟩⟩),
         ("j2", ⟨"b_y.wav", "audio/b_y.wav", "b_y.wav", JStatus.failed, none,
          some ⟨"j2", RStatus.rFailed, some "bad media", "uri2", none⟩⟩)]).2.2 =
      ([("j1", (⟨"a_x.wav", "audio/a_x.wav", "a_x.wav", JStatus.completed, none,
          some ⟨"j1", RStatus.rCompleted, none, "uri1", some "1.23"⟩⟩ : JobInfo)),
        ("j2", ⟨"b_y.wav", "audio/b_y.wav", "b_y.wav", JStatus.failed, none,
          some ⟨"j2", RStatus.rFailed, some "bad media", "uri2", none⟩⟩)] :
        List (String × JobInfo)).map (fun p => p.2.s3Key) := by
  exact cleanup_logs_characterized (fun _ => Except.ok "text")
    (fun _ => Except.ok ()) (fun _ => Except.ok ()) _ (fun _ => rfl)

theorem digitChar_ne_dash (d : Nat) : digitChar d ≠ '-' := by
  unfold digitChar
  split <;> decide

theorem digitChar_inj {d1 d2 : Nat} (h1 : d1 < 10) (h2 : d2 < 10)
    (h : digitChar d1 = digitChar d2) : d1 = d2 := by
  interval_cases d1 <;> interval_cases d2 <;> simp_all [digitChar]

theorem mapDigitChar_inj :
    ∀ (l1 l2 : List Nat), (∀ x ∈ l1, x < 10) → (∀ x ∈ l2, x < 10) →
      l1.map digitChar = l2.map digitChar → l1 = l2 := by
  intro l1
  induction l1 with
  | nil =>
    intro l2 _ _ h
    cases l2 with
    | nil => rfl
    | cons b t => simp at h
  | cons a t ih =>
    intro l2 ha hb h
    cases l2 with
    | nil => simp at h
    | cons b t2 =>
      simp only [List.map_cons, List.cons.injEq] at h
      have hd : a = b := digitChar_inj (ha a (by simp)) (hb b (by simp)) h.1
      have ht : t = t2 := ih t2 (fun x hx => ha x (by simp [hx]))
        (fun x hx => hb x (by simp [hx])) h.2
      rw [hd, ht]

theorem decRepr_mem_ne_dash {n : Nat} : ∀ c ∈ decRepr n, c ≠ '-' := by
  intro c hc
  unfold decRepr at hc
  by_cases hn : n = 0
  · rw [if_pos hn] at hc
    simp at hc
    subst hc
    decide
  · rw [if_neg hn] at hc
    obtain ⟨d, _, hd⟩ := List.mem_map.mp hc
    rw [← hd]
    exact digitChar_ne_dash d

theorem decRepr_inj {m n : Nat} (h : decRepr m = decRepr n) : m = n := by
  unfold decRepr at h
  by_cases hm : m = 0 <;> by_cases hn : n = 0
  · rw [hm, hn]
  · rw [if_pos hm, if_neg hn] at h
    exfalso
    cases hd : Nat.digits 10 n with
    | nil =>
      have : n = 0 := by
        have := Nat.ofDigits_digits 10 n
        rw [hd] at this
        simpa [Nat.ofDigits] using this.symm
      exact hn this
    | cons d t =>
      rw [hd] at h
      have hlen := congrArg List.length h
      simp at hlen
      have ht : t = [] := by
        cases t with
        | nil => rfl
        | cons x xs => simp at hlen
      subst ht
      simp only [List.reverse_cons, List.reverse_nil, List.nil_append,
        List.map_cons, List.map_nil] at h
      have hdch : digitChar d = '0' := by
        have := List.head_eq_of_cons_eq h.symm
        exact this
      have hd10 : d < 10 := Nat.digits_lt_base (by norm_num) (by rw [hd]; simp)
      have hd0 : d = 0 := digitChar_inj hd10 (by norm_num) (by rw [hdch]; rfl)
      have := Nat.ofDigits_digits 10 n
      rw [hd, hd0] at this
      simp [Nat.ofDigits] at this
      exact hn this.symm
  · rw [if_neg hm, if_pos hn] at h
    exfalso
    cases hd : Nat.digits 10 m with
    | nil =>
      have : m = 0 := by
        have := Nat.ofDigits_digits 10 m
        rw [hd] at this
        simpa [Nat.ofDigits] using this.symm
      exact hm this
    | cons d t =>
      rw [hd] at h
      have hlen := congrArg List.length h
      simp at hlen
      have ht : t = [] := by
        cases t with
        | nil => rfl
        | cons x xs => simp at hlen
      subst ht
      simp only [List.reverse_cons, List.reverse_nil, List.nil_append,
        List.map_cons, List.map_nil] at h
      have hdch : digitChar d = '0' := by
        have := List.head_eq_of_cons_eq h
        exact this
      have hd10 : d < 10 := Nat.digits_lt_base (by norm_num) (by rw [hd]; simp)
      have hd0 : d = 0 := digitChar_inj hd10 (by norm_num) (by rw [hdch]; rfl)
      have := Nat.ofDigits_digits 10 m
      rw [hd, hd0] at this
      simp [Nat.ofDigits] at this
      exact hm this.symm
  · rw [if_neg hm, if_neg hn] at h
    have hmem1 : ∀ x ∈ (Nat.digits 10 m).reverse, x < 10 := fun x hx =>
      Nat.digits_lt_base (by norm_num) (List.mem_reverse.mp hx)
    have hmem2 : ∀ x ∈ (Nat.digits 10 n).reverse, x < 10 := fun x hx =>
      Nat.digits_lt_base (by norm_num) (List.mem_reverse.mp hx)
    have hrev := mapDigitChar_inj _ _ hmem1 hmem2 h
    have hdig : Nat.digits 10 m = Nat.digits 10 n :=
      List.reverse_injective hrev
    have := congrArg (Nat.ofDigits 10) hdig
    rwa [Nat.ofDigits_digits, Nat.ofDigits_digits] at this

theorem splitNoDash :
    ∀ (a b xs ys : List Char), (∀ c ∈ a, c ≠ '-') → (∀ c ∈ b, c ≠ '-') →
      a ++ '-' :: xs = b ++ '-' :: ys → a = b ∧ xs = ys := by
  intro a
  induction a with
  | nil =>
    intro b xs ys _ hb h
    cases b with
    | nil =>
      simp only [List.nil_append] at h
      exact ⟨rfl, List.tail_eq_of_cons_eq h⟩
    | cons c t =>
      exfalso
      simp only [List.nil_append, List.cons_append] at h
      exact hb c (by simp) (List.head_eq_of_cons_eq h).symm
  | cons c t ih =>
    intro b xs ys ha hb h
    cases b with
    | nil =>
      exfalso
      simp only [List.nil_append, List.cons_append] at h
      exact ha c (by simp) (List.head_eq_of_cons_eq h)
    | cons c2 t2 =>
      simp only [List.cons_append, List.cons.injEq] at h
      obtain ⟨h1, h2⟩ := h
      obtain ⟨h3, h4⟩ := ih t2 xs ys (fun x hx => ha x (by simp [hx]))
        (fun x hx => hb x (by simp [hx])) h2
      exact ⟨by rw [h1, h3], h4⟩

theorem jobName_ms_inj {m1 m2 : Nat} {s1 s2 : String}
    (h : jobName m1 s1 = jobName m2 s2) : m1 = m2 := by
  have hd := congrArg String.data h
  simp only [jobName, decStr, String.data_append, string_mk_data,
    List.append_assoc] at hd
  have hd2 : decRepr m1 ++ '-' :: s1.data = decRepr m2 ++ '-' :: s2.data := by
    have := List.append_cancel_left hd
    simpa using this
  exact decRepr_inj (splitNoDash _ _ _ _ decRepr_mem_ne_dash
    decRepr_mem_ne_dash hd2).1

theorem uploadPairs_names_shape (upload : String → Except String Unit)
    (hok : ∀ f, upload f = Except.ok ()) :
    ∀ (l : List String) (now : Nat) (advs : List Nat) (nm : String),
      nm ∈ (uploadPairs upload l now advs).map Prod.fst →
      ∃ m s, nm = jobName m s ∧ now / 1000 ≤ m := by
  intro l
  induction l with
  | nil => simp [uploadPairs]
  | cons f fs ih =>
    intro now advs nm hmem
    simp only [uploadPairs, hok f] at hmem
    rcases List.mem_cons.mp hmem with h1 | h1
    · exact ⟨now / 1000, sanitize (pyBasename f), h1, Nat.le_refl _⟩
    · obtain ⟨m, s, heq, hge⟩ := ih _ _ _ h1
      refine ⟨m, s, heq, le_trans ?_ hge⟩
      exact Nat.div_le_div_right (by omega)

theorem uploadPairs_names_nodup (upload : String → Except String Unit)
    (hok : ∀ f, upload f = Except.ok ()) :
    ∀ (l : List String) (now : Nat) (advs : List Nat),
      ((uploadPairs upload l now advs).map Prod.fst).Nodup := by
  intro l
  induction l with
  | nil => simp [uploadPairs]
  | cons f fs ih =>
    intro now advs
    simp only [uploadPairs, hok f, List.map_cons]
    refine List.nodup_cons.mpr ⟨?_, ih _ _⟩
    intro hmem
    obtain ⟨m, s, heq, hge⟩ := uploadPairs_names_shape upload hok _ _ _ _ hmem
    have hms : now / 1000 = m := jobName_ms_inj heq
    have h10 : now / 1000 + 10 ≤ (now + 10000 + advs.headD 0) / 1000 := by omega
    omega

/-- Claim C8 counterexample: two distinct file names whose sanitized forms
coincide (`a.b.wav` and `a-b.wav` both sanitize to `a-b-wav`) and whose
uploads fail — so the inter-submission `time.sleep(0.01)`, which sits on
the success path only, never runs — receive the same millisecond timestamp
and hence the same jobId: the generated identifiers are not pairwise
distinct. -/
theorem duplicate_job_ids_when_upload_fails :
    ¬ (uploadNames (fun _ => Except.error "network error")
        ["a.b.wav", "a-b.wav"] 0 []).Nodup := by
  decide

/-- Claim C8 as amended: job identifiers generated by the upload sweep are
pairwise distinct whenever every upload succeeds — the 10 ms sleep after
each successful upload makes the millisecond timestamps strictly increase;
when an upload raises, the sleep is skipped and two files with equal
sanitized names falling in the same millisecond can collide. -/
theorem job_ids_distinct_when_uploads_succeed (upload : String → Except String Unit)
    (files : List String) (now : Nat) (advs : List Nat)
    (hok : ∀ f, upload f = Except.ok ()) :
    (uploadNames upload files now advs).Nodup :=
  uploadPairs_names_nodup upload hok _ now advs

/-- Claim C8 witness: 100 successfully uploading descriptors in rapid
succession (zero extra clock advance between submissions) yield pairwise
distinct job identifiers, obtained from the amended theorem with an
always-succeeding upload oracle. -/
theorem job_ids_distinct_when_uploads_succeed_witness :
    (uploadNames (fun _ => Except.ok ())
      ((List.range 100).map (fun i => "f" ++ decStr i ++ ".wav")) 0 []).Nodup :=
  job_ids_distinct_when_uploads_succeed _ _ _ _ (fun _ => rfl)

end STT
